import Mathlib

/-
Verification of the annotator-store query-building, authorization-filtering
and document-merging logic.

The Python source manipulates JSON-like dictionaries (Flask request payloads,
Elasticsearch query bodies, annotation and document records).  We embed those
values as the inductive type JVal below; a Python dict is a duplicate-free
association list of string keys.  Modules of the repository that are not part
of the extracted sources (the es model base class, the authz helpers, the
atoi helper) are modelled from the specification and marked as such in their
doc comments.
-/

set_option autoImplicit false

/-- JSON-like values: the dynamic values the Python code passes around.
Python dicts are association lists of string keys (duplicate-free in any
value that can actually arise from JSON or the index). -/
inductive JVal where
  | null : JVal
  | bool : Bool → JVal
  | num : Int → JVal
  | str : String → JVal
  | arr : List JVal → JVal
  | obj : List (String × JVal) → JVal

/-- A Python dict with string keys, as used for annotations, documents and
query bodies. -/
abbrev JDict := List (String × JVal)

/-- Key lookup in a dict: Python d.get(k) / d[k] (first binding wins, as in a
duplicate-free dict). -/
def lookupList : JDict → String → Option JVal
  | [], _ => none
  | (k2, v) :: rest, k => if k2 == k then some v else lookupList rest k

/-- Python `k in d`. -/
def hasKey (o : JDict) (k : String) : Bool :=
  (lookupList o k).isSome

/-- Python `d[k] = v`: replace the binding if the key is present, else append. -/
def setKey : JDict → String → JVal → JDict
  | [], k, v => [(k, v)]
  | (k2, w) :: rest, k, v =>
    if k2 == k then (k, v) :: rest else (k2, w) :: setKey rest k v

/-- Python truthiness of a JSON value (`if not f: ...`). -/
def JVal.truthy : JVal → Bool
  | .null => false
  | .bool b => b
  | .num n => n != 0
  | .str s => s != ""
  | .arr xs => !xs.isEmpty
  | .obj kvs => !kvs.isEmpty

mutual

/-- Python `==` on JSON values: structural on scalars and lists, key-based
(order-insensitive) on dicts. -/
def pyEq : JVal → JVal → Bool
  | JVal.null, JVal.null => true
  | JVal.bool a, JVal.bool b => a == b
  | JVal.num a, JVal.num b => a == b
  | JVal.str a, JVal.str b => a == b
  | JVal.arr a, JVal.arr b => pyEqList a b
  | JVal.obj a, JVal.obj b => pyEqDictLe a b && pyEqDictLe b a
  | _, _ => false
termination_by x y => sizeOf x + sizeOf y

/-- Elementwise Python `==` on lists. -/
def pyEqList : List JVal → List JVal → Bool
  | [], [] => true
  | a :: as, b :: bs => pyEq a b && pyEqList as bs
  | _, _ => false
termination_by x y => sizeOf x + sizeOf y

/-- Every binding of the first dict is matched (by key) in the second. -/
def pyEqDictLe : JDict → JDict → Bool
  | [], _ => true
  | (k, v) :: rest, b => pyEqLookup k v b && pyEqDictLe rest b
termination_by x y => sizeOf x + sizeOf y

/-- Look up the key in the dict and compare the values with Python `==`. -/
def pyEqLookup : String → JVal → JDict → Bool
  | _, _, [] => false
  | k, v, (k2, w) :: rest => if k2 == k then pyEq v w else pyEqLookup k v rest
termination_by _ v b => sizeOf v + sizeOf b

end

/-- Python `v in xs` for a list of JSON values. -/
def containsPy (xs : List JVal) (v : JVal) : Bool :=
  xs.any (fun u => pyEq v u)

/-- View an optional value as a dict ([] when absent or not a dict; the
source would raise there). -/
def jobj : Option JVal → JDict
  | some (JVal.obj kvs) => kvs
  | _ => []

/-- View a JSON value as a dict. -/
def jobjV : JVal → JDict
  | JVal.obj kvs => kvs
  | _ => []

/-- View an optional value as a list ([] when absent or not a list; the
source would raise there). -/
def jarr : Option JVal → List JVal
  | some (JVal.arr xs) => xs
  | _ => []

/-- Python `k in l` for a JSON value that should be a dict. -/
def JVal.hasKeyV : JVal → String → Bool
  | JVal.obj kvs, k => (lookupList kvs k).isSome
  | _, _ => false

theorem lookup_setKey_self (o : JDict) (k : String) (v : JVal) :
    lookupList (setKey o k v) k = some v := by
  induction o with
  | nil => simp [setKey, lookupList]
  | cons kv rest ih =>
    obtain ⟨k2, w⟩ := kv
    by_cases h : k2 == k
    · simp [setKey, h, lookupList]
    · simp [setKey, h, lookupList, ih]

theorem lookup_setKey_ne (o : JDict) (k k2 : String) (v : JVal) (h : k ≠ k2) :
    lookupList (setKey o k v) k2 = lookupList o k2 := by
  induction o with
  | nil => simp [setKey, lookupList, h]
  | cons kv rest ih =>
    obtain ⟨k3, w⟩ := kv
    by_cases h3 : k3 == k
    · have hk3 : k3 = k := by simpa using h3
      subst hk3
      simp [setKey, lookupList, h]
    · by_cases h4 : k3 == k2
      · simp [setKey, h3, lookupList, h4]
      · simp [setKey, h3, lookupList, h4, ih]

/-
Document model (src/annotator/document.py).  A Document record is a JSON
dict; its links live under the key "link" as a list of link dicts.
-/

/-- The list value under a document record's "link" key ([] when absent or
not a list; document.py reads the key with .get(link, []) in uris and
indexes it directly in merge_links, raising there when absent). -/
def linkList (doc : JDict) : List JVal :=
  match lookupList doc "link" with
  | some (JVal.arr xs) => xs
  | _ => []

/-- Python link.get(href): the href value of a link dict, None when absent
(conflating an absent key with an explicit null, exactly as .get does). -/
def hrefOf : JVal → JVal
  | JVal.obj kvs => (lookupList kvs "href").getD JVal.null
  | _ => JVal.null

/-- Document.uris / Document._uris_from_links: the href values of all links
of the document, in order (None entries included for links without href). -/
def Document.uris (doc : JDict) : List JVal :=
  (linkList doc).map hrefOf

/-- One iteration of the loop body of Document.merge_links: append the link
when it has both href and type keys and its href is not in current_uris
(current_uris is computed once, before the loop). -/
def mergeStep (current_uris : List JVal) (d : JDict) (l : JVal) : JDict :=
  if l.hasKeyV "href" && l.hasKeyV "type" && !containsPy current_uris (hrefOf l)
  then setKey d "link" (JVal.arr (linkList d ++ [l]))
  else d

/-- Document.merge_links: fold the loop body over the incoming links, with
current_uris fixed at entry. -/
def Document.merge_links (doc : JDict) (links : List JVal) : JDict :=
  links.foldl (mergeStep (Document.uris doc)) doc

/-- Does the document own at least one of the given hrefs (Python ==)? -/
def docOwnsAny (uris : List JVal) (doc : JDict) : Bool :=
  (Document.uris doc).any (fun u => uris.any (fun v => pyEq u v))

/-- Modelled from the spec: Document.get_all_by_uris (defined on the es
model base class, which is not under src/) returns every Document record
that owns at least one of the given hrefs.  The document index is passed
explicitly as a list of records. -/
def Document.get_all_by_uris (index : List JDict) (uris : List JVal) : List JDict :=
  index.filter (docOwnsAny uris)

/-- Modelled from the spec: Document.get_by_uri returns the single Document
owning this href, or none (the first owner in the index). -/
def Document.get_by_uri (index : List JDict) (uri : JVal) : Option JDict :=
  (index.filter (docOwnsAny [uri])).head?

/-- Replace the first record satisfying p with newDoc, leaving everything
else in place.  Models persisting an updated Document back to the index. -/
def replaceFirst : List JDict → (JDict → Bool) → JDict → List JDict
  | [], _, _ => []
  | x :: xs, p, newDoc =>
    if p x then newDoc :: xs else x :: replaceFirst xs p newDoc

/-
Authorization collaborators (annotator/authz.py is not under src/).
-/

/-- Modelled from the spec: the well-known public-consumer principal that
authz.GROUP_CONSUMER names (granted read access when no permissions were
supplied at creation). -/
def GROUP_CONSUMER : String := "group:__consumer__"

/-- A consumer (issuing application) identity, as used by the auth layer. -/
structure Consumer where
  key : String

/-- An authenticated user identity (g.user): user id plus consumer. -/
structure User where
  id : String
  consumer : Consumer

/-- Python `not f` on the result of authz.permissions_filter: the builder
failed when it returns None or any falsy value. -/
def filterFalsy : Option JVal → Bool
  | none => true
  | some f => !f.truthy

/-
Annotation model (src/annotator/annotation.py).
-/

/-- annotation._add_default_permissions: give the annotation read permission
for the public consumer when the client supplied no permissions at all. -/
def _add_default_permissions (ann : JDict) : JDict :=
  if hasKey ann "permissions" then ann
  else setKey ann "permissions" (JVal.obj [("read", JVal.arr [JVal.str GROUP_CONSUMER])])

/-- The list comprehension uris = [link[href] for link in d[link]] needs the
link key to hold a list; a missing key is a KeyError in the source. -/
def dLinkList (d : JVal) : Except String (List JVal) :=
  match d with
  | JVal.obj kvs =>
    match lookupList kvs "link" with
    | some (JVal.arr ls) => Except.ok ls
    | some _ => Except.error "TypeError: link is not a list"
    | none => Except.error "KeyError: link"
  | _ => Except.error "TypeError: document is not a dict"

/-- Extract link[href] for every link; a link without the key is a KeyError
in the source. -/
def hrefsOfLinks (ls : List JVal) : Except String (List JVal) :=
  ls.mapM (fun l =>
    match l with
    | JVal.obj lk =>
      match lookupList lk "href" with
      | some h => Except.ok h
      | none => Except.error "KeyError: href"
    | _ => Except.error "TypeError: link is not a dict")

/-- Annotation.save: add default permissions, then resolve the embedded
document metadata against the document index: create a new Document when no
existing record owns any of the embedded hrefs, otherwise merge the links
into the first match and persist it.  Returns the persisted annotation and
the updated document index; persistence of Documents is modelled from the
spec (the es base save is not under src/). -/
def Annot.save (docIndex : List JDict) (ann : JDict) : Except String (JDict × List JDict) :=
  let ann := _add_default_permissions ann
  match lookupList ann "document" with
  | none => Except.ok (ann, docIndex)
  | some d =>
    match dLinkList d with
    | Except.error e => Except.error e
    | Except.ok ls =>
      match hrefsOfLinks ls with
      | Except.error e => Except.error e
      | Except.ok uris =>
        match Document.get_all_by_uris docIndex uris with
        | [] => Except.ok (ann, docIndex ++ [jobjV d])
        | doc0 :: _ =>
          Except.ok (ann, replaceFirst docIndex (docOwnsAny uris) (Document.merge_links doc0 ls))

/-
Search paths (src/annotator/annotation.py, classmethods search_raw and
_build_query).  The authz.permissions_filter collaborator is passed in as a
function (its module is not under src/); es.authorization_enabled is passed
as a flag.
-/

/-- Annotation.search_raw: when authorization is enabled (the explicit
override takes precedence over the process-wide flag), obtain the permission
filter for the user; a falsy filter aborts the query (the source raises
there — with a misspelled RunTimeError name, so at runtime a NameError, but
either way no query is executed).  Otherwise wrap the client query: the
query actually handed to the index gets a filtered query whose filter is the
permission filter and whose query part is the original top-level query value
when one was supplied.  Extra search params are passed through to the index
untouched and are omitted here. -/
def Annot.search_raw (pf : Option User → Option JVal) (es_authz : Bool)
    (query : Option JDict) (user : Option User) (authz_override : Option Bool) :
    Except String JDict :=
  let query := query.getD []
  let enabled := authz_override.getD es_authz
  if enabled then
    match pf user with
    | none => Except.error "Authorization filter creation failed"
    | some f =>
      if !f.truthy then Except.error "Authorization filter creation failed"
      else
        let inner : JDict := [("filter", f)]
        let inner :=
          match lookupList query "query" with
          | some qv => setKey inner "query" qv
          | none => inner
        Except.ok (setKey query "query" (JVal.obj [("filtered", JVal.obj inner)]))
  else Except.ok query

/-- Modelled from the spec: the fixed maximum page size (referenced as
RESULTS_MAX_SIZE by store.py; its definition lives in the es module, not
under src/). -/
def RESULTS_MAX_SIZE : Int := 200

/-- The term clause the modelled base query builder emits for one query
parameter. -/
def termClause (kv : String × JVal) : JVal :=
  JVal.obj [("term", JVal.obj [(kv.1, kv.2)])]

/-- Modelled from the spec: es.Model._build_query (the es module is not
under src/): each query parameter becomes an exact-match term clause, ANDed
together as the filter of a filtered match_all query; offset and limit get
defaults 0 and 20 and are clamped to the legal range.  Sort directives are
omitted; they do not affect the properties proved below. -/
def esModel_build_query (query : JDict) (offset limit : Option Int) : JDict :=
  [("from", JVal.num (max 0 (offset.getD 0))),
   ("size", JVal.num (min RESULTS_MAX_SIZE (max 0 (limit.getD 20)))),
   ("query", JVal.obj
     [("filtered", JVal.obj
       [("query", JVal.obj [("match_all", JVal.obj [])]),
        ("filter", JVal.obj [("and", JVal.arr (query.map termClause))])])])]

/-- Navigate to the and-list of the filter of the filtered query:
q[query][filtered][filter][and]. -/
def andListOf (q : JDict) : List JVal :=
  jarr (lookupList (jobj (lookupList (jobj (lookupList (jobj (lookupList q "query")) "filtered")) "filter")) "and")

/-- Write a new and-list back through the same path, mirroring the in-place
mutation term_filter[and] = new_terms of the nested dict. -/
def setAndList (q : JDict) (newAnd : List JVal) : JDict :=
  let qv := jobj (lookupList q "query")
  let fv := jobj (lookupList qv "filtered")
  let flt := jobj (lookupList fv "filter")
  setKey q "query" (JVal.obj (setKey qv "filtered" (JVal.obj (setKey fv "filter" (JVal.obj (setKey flt "and" (JVal.arr newAnd)))))))

/-- The or-of-terms clause built from all hrefs of a Document. -/
def orOfUris (doc : JDict) : JVal :=
  JVal.obj [("or", JVal.arr ((Document.uris doc).map (fun uri => JVal.obj [("term", JVal.obj [("uri", uri)])])))]

/-- Annotation._build_query: build the base query, expand a uri parameter to
an or-of-terms over all equivalent hrefs when the Document registry knows
the uri, and, when authorization is enabled, wrap the query with the
permission filter — returning none (the source returns False) when the
filter is falsy. -/
def Annot._build_query (pf : Option User → Option JVal) (es_authz : Bool)
    (docIndex : List JDict) (query : Option JDict) (offset limit : Option Int)
    (user : Option User) : Option JDict :=
  let query := query.getD []
  let q := esModel_build_query query offset limit
  let q :=
    if hasKey query "uri" then
      match Document.get_by_uri docIndex ((lookupList query "uri").getD JVal.null) with
      | some doc =>
        let new_terms := (andListOf q).map (fun term =>
          if hasKey (jobj (lookupList (jobjV term) "term")) "uri" then orOfUris doc
          else term)
        setAndList q new_terms
      | none => q
    else q
  if es_authz then
    match pf user with
    | none => none
    | some f =>
      if !f.truthy then none
      else some (setKey q "query" (JVal.obj [("filtered", JVal.obj [("query", (lookupList q "query").getD JVal.null), ("filter", f)])]))
  else some q

/-
A model of the index search operation (the search index is an external
collaborator; modelled from the spec: a filtered query returns only hits
admitted by its filter AND matching its query part).
-/

/-- Modelled from the spec: evaluation of a top-level query value by the
index.  A filtered query is the conjunction of its query part and its
filter; any other shape is delegated to the abstract leaf evaluator ev. -/
def esQueryEval {α : Type} (ev : JVal → α → Bool) (qv : JVal) (a : α) : Bool :=
  match qv with
  | JVal.obj kvs =>
    match lookupList kvs "filtered" with
    | some (JVal.obj fkvs) =>
      (match lookupList fkvs "query" with
       | some qq => ev qq a
       | none => true) &&
      (match lookupList fkvs "filter" with
       | some ff => ev ff a
       | none => true)
    | some _ => false
    | none => ev (JVal.obj kvs) a
  | v => ev v a

/-- Modelled from the spec: the index search endpoint: keep the documents
whose evaluation of the body's top-level query value is true. -/
def esSearchRaw {α : Type} (ev : JVal → α → Bool) (docs : List α) (q : JDict) : List α :=
  match lookupList q "query" with
  | some qv => docs.filter (fun a => esQueryEval ev qv a)
  | none => docs

/-
Store layer (src/annotator/store.py).  The HTTP handlers are embedded as
functions from the request data (user identity, payload, url id) and the
persistent state (the annotation index and the document index, both lists of
records) to a response plus the new state.  The g.authorize collaborator is
passed in as a function; content negotiation and the optional lifecycle
hooks (no-ops by default) are omitted.
-/

/-- An HTTP response as produced by jsonify: a JSON body plus a status. -/
structure HttpResponse where
  body : JVal
  status : Nat

/-- store.CREATE_FILTER_FIELDS. -/
def CREATE_FILTER_FIELDS : List String := ["updated", "created", "consumer", "id"]

/-- store.UPDATE_FILTER_FIELDS. -/
def UPDATE_FILTER_FIELDS : List String := ["updated", "created", "user", "consumer"]

/-- store._filter_input: pop each named field from the payload. -/
def _filter_input (obj : JDict) (fields : List String) : JDict :=
  fields.foldl (fun o field => o.filter (fun kv => kv.1 != field)) obj

/-- store._failed_authz_response: a 401 with a human-readable message. -/
def _failed_authz_response (user : Option User) (msg : String) : HttpResponse :=
  { body := JVal.str ("Cannot authorize request" ++
      (if msg == "" then "" else " (" ++ msg ++ ")") ++
      ". Perhaps you are not logged in as a user with appropriate permissions on this resource. (user=" ++
      (match user with | some u => u.id | none => "None") ++ ", consumer=" ++
      (match user with | some u => u.consumer.key | none => "None") ++ ")"),
    status := 401 }

/-- store._check_action: ask the authorization collaborator; some failure
response when the action is not allowed. -/
def _check_action (authorize : JDict → String → Option User → Bool)
    (user : Option User) (ann : JDict) (action msg : String) : Option HttpResponse :=
  if !authorize ann action user then some (_failed_authz_response user msg) else none

/-- Does this record carry the given id? -/
def idIs (a : JDict) (id : String) : Bool :=
  match lookupList a "id" with
  | some (JVal.str s) => s == id
  | _ => false

/-- Modelled from the spec: Annotation.fetch (es base class, not under
src/): get-by-id from the annotation index. -/
def Annot.fetch (annIndex : List JDict) (id : String) : Option JDict :=
  annIndex.find? (fun a => idIs a id)

/-- Python dict.update: overwrite the record with every binding of the
update payload. -/
def dictUpdate (ann updated : JDict) : JDict :=
  updated.foldl (fun a kv => setKey a kv.1 kv.2) ann

/-- The filtered update payload with the id forced back to the one from the
URL (updated[id] = id). -/
def updatedPayload (json : JDict) (id : String) : JDict :=
  setKey (_filter_input json UPDATE_FILTER_FIELDS) "id" (JVal.str id)

/-- The changing_permissions test of store.update_annotation: the filtered
payload has a permissions value and it differs (Python ==) from the stored
one (default empty dict). -/
def changingPermissions (updated ann : JDict) : Bool :=
  hasKey updated "permissions" &&
    !pyEq ((lookupList updated "permissions").getD JVal.null)
          ((lookupList ann "permissions").getD (JVal.obj []))

/-- store.read_annotation: fetch, 404 when unknown, then the read action
check, then render. -/
def read_annot (authorize : JDict → String → Option User → Bool)
    (user : Option User) (annIndex : List JDict) (id : String) : HttpResponse :=
  match Annot.fetch annIndex id with
  | none => { body := JVal.str "Annotation not found!", status := 404 }
  | some ann =>
    match _check_action authorize user ann "read" "" with
    | some failure => failure
    | none => { body := JVal.obj ann, status := 200 }

/-- store.update_annotation: fetch, 404 when unknown, the update action
check, then — when a payload was sent — filter it, force the id, require
admin when it changes the permissions, apply the update and save.  The save
call can raise (malformed embedded document); the annotation index write is
modelled from the spec as replacing the record with this id. -/
def update_annot (authorize : JDict → String → Option User → Bool)
    (user : Option User) (annIndex docIndex : List JDict) (id : String)
    (payload : Option JDict) :
    Except String (HttpResponse × List JDict × List JDict) :=
  match Annot.fetch annIndex id with
  | none =>
    Except.ok ({ body := JVal.str "Annotation not found! No update performed.", status := 404 },
      annIndex, docIndex)
  | some ann =>
    match _check_action authorize user ann "update" "" with
    | some failure => Except.ok (failure, annIndex, docIndex)
    | none =>
      match payload with
      | none => Except.ok ({ body := JVal.obj ann, status := 200 }, annIndex, docIndex)
      | some json =>
        let updated := updatedPayload json id
        if changingPermissions updated ann && !authorize ann "admin" user then
          Except.ok (_failed_authz_response user "permissions update", annIndex, docIndex)
        else
          match Annot.save docIndex (dictUpdate ann updated) with
          | Except.error e => Except.error e
          | Except.ok (ann2, docIndex2) =>
            Except.ok ({ body := JVal.obj ann2, status := 200 },
              replaceFirst annIndex (fun a => idIs a id) ann2, docIndex2)

/-- store.delete_annotation: fetch, 404 when unknown, the delete action
check, then delete (modelled from the spec: remove the record with this id)
and answer 204. -/
def delete_annot (authorize : JDict → String → Option User → Bool)
    (user : Option User) (annIndex : List JDict) (id : String) :
    HttpResponse × List JDict :=
  match Annot.fetch annIndex id with
  | none => ({ body := JVal.str "Annotation not found. No delete performed.", status := 404 }, annIndex)
  | some ann =>
    match _check_action authorize user ann "delete" "" with
    | some failure => (failure, annIndex)
    | none => ({ body := JVal.str "", status := 204 }, annIndex.filter (fun a => !idIs a id))

/-- store._get_annotation_user: the best guess at the owner user id of the
payload: None for a falsy user value, the id entry (or None) when it is a
dict, the value itself otherwise. -/
def _get_ann_user (ann : JDict) : Option JVal :=
  match lookupList ann "user" with
  | none => none
  | some user =>
    if !user.truthy then none
    else
      match user with
      | JVal.obj kvs => some ((lookupList kvs "id").getD JVal.null)
      | v => some v

/-- The comparison _get_annotation_user(annotation) != g.user.id. -/
def annUserNe (ann : JDict) (u : User) : Bool :=
  match _get_ann_user ann with
  | none => true
  | some v => !pyEq v (JVal.str u.id)

/-- store.create_annotation: only registered users may create; the filtered
payload gets its consumer forced to the authenticated consumer key and (when
the payload names a different owner) its user forced to the authenticated
user id, then the annotation is saved.  The new record is appended to the
annotation index (modelled from the spec: the index assigns a fresh id). -/
def create_annot (user : Option User) (annIndex docIndex : List JDict)
    (payload : Option JDict) :
    Except String (HttpResponse × List JDict × List JDict) :=
  match user with
  | none => Except.ok (_failed_authz_response none "create annotation", annIndex, docIndex)
  | some u =>
    match payload with
    | none =>
      Except.ok ({ body := JVal.str "No JSON payload sent. Annotation not created.", status := 400 },
        annIndex, docIndex)
    | some json =>
      let ann := _filter_input json CREATE_FILTER_FIELDS
      let ann := setKey ann "consumer" (JVal.str u.consumer.key)
      let ann := if annUserNe ann u then setKey ann "user" (JVal.str u.id) else ann
      match Annot.save docIndex ann with
      | Except.error e => Except.error e
      | Except.ok (ann2, docIndex2) =>
        Except.ok ({ body := JVal.obj ann2, status := 200 }, annIndex ++ [ann2], docIndex2)

/-- Modelled from the spec: annotator.atoi.atoi (module not under src/):
parse an integer, 0 for unparsable input. -/
def atoi : JVal → Int
  | JVal.num n => n
  | JVal.str s => (s.toInt?).getD 0
  | _ => 0

/-- First statement of the clamp loop body of store._build_query_raw: a
from value is floored to 0. -/
def clampFrom (o : JDict) : JDict :=
  if hasKey o "from" then setKey o "from" (JVal.num (max 0 (atoi ((lookupList o "from").getD JVal.null))))
  else o

/-- Second statement of the clamp loop body: a size value is clamped into
[0, RESULTS_MAX_SIZE]. -/
def clampSize (o : JDict) : JDict :=
  if hasKey o "size" then setKey o "size" (JVal.num (min RESULTS_MAX_SIZE (max 0 (atoi ((lookupList o "size").getD JVal.null)))))
  else o

/-- The clamp loop at the end of store._build_query_raw, applied to one of
the two dicts. -/
def clampO (o : JDict) : JDict :=
  clampSize (clampFrom o)

/-- The final stage of store._build_query_raw: whatever (query, params) pair
the GET or POST branch produced, both dicts get their paging controls
clamped before being handed to the search. -/
def build_query_raw_clamp (query params : JDict) : JDict × JDict :=
  (clampO query, clampO params)

/-- The read permission list of a stored annotation record. -/
def permissionsRead (a : JDict) : List JVal :=
  jarr (lookupList (jobj (lookupList a "permissions")) "read")

/-
Helper lemmas shared by the claim theorems.
-/

theorem lookup_addDefault_ne (a : JDict) (k : String) (h : "permissions" ≠ k) :
    lookupList (_add_default_permissions a) k = lookupList a k := by
  unfold _add_default_permissions
  split
  · rfl
  · exact lookup_setKey_ne a "permissions" k _ h

theorem save_ok_fst (docIndex : List JDict) (ann ann2 : JDict) (docIndex2 : List JDict)
    (h : Annot.save docIndex ann = Except.ok (ann2, docIndex2)) :
    ann2 = _add_default_permissions ann := by
  simp only [Annot.save] at h
  repeat' split at h
  all_goals first
    | (simp only [Except.ok.injEq, Prod.mk.injEq] at h; exact h.1.symm)
    | simp at h

/-- Claim C2: when authorization is enabled and the permission filter
builder returns none or a falsy value, both the raw search path and the
structured query build refuse: search_raw aborts with an error (no query is
ever sent to the index) and _build_query returns none instead of a query. -/
theorem claim_C2_falsy_filter_refuses (pf : Option User → Option JVal) (user : Option User)
    (qd q2 : Option JDict) (docIndex : List JDict) (offset limit : Option Int)
    (h : filterFalsy (pf user) = true) :
    Annot.search_raw pf true qd user none = Except.error "Authorization filter creation failed" ∧
    Annot._build_query pf true docIndex q2 offset limit user = none := by
  cases hpf : pf user with
  | none =>
    constructor
    · simp [Annot.search_raw, hpf]
    · simp [Annot._build_query, hpf]
  | some f =>
    have hft : f.truthy = false := by
      simp [filterFalsy, hpf] at h
      exact h
    constructor
    · simp [Annot.search_raw, hpf, hft]
    · simp [Annot._build_query, hpf, hft]

theorem claim_C2_witness :
    filterFalsy ((fun (_ : Option User) => (none : Option JVal)) none) = true ∧
    (Annot.search_raw (fun _ => none) true none none none = Except.error "Authorization filter creation failed" ∧
     Annot._build_query (fun _ => none) true [] none none none none = none) :=
  ⟨rfl, claim_C2_falsy_filter_refuses (fun _ => none) none none none [] none none rfl⟩

/-- Claim C3: an annotation saved without any client-supplied permissions is
persisted with permissions.read equal to the one-element list holding the
public-consumer principal (hence non-empty and containing it). -/
theorem claim_C3_default_read_permission (docIndex : List JDict) (ann ann2 : JDict)
    (docIndex2 : List JDict)
    (h1 : hasKey ann "permissions" = false)
    (h2 : Annot.save docIndex ann = Except.ok (ann2, docIndex2)) :
    lookupList ann2 "permissions" = some (JVal.obj [("read", JVal.arr [JVal.str GROUP_CONSUMER])]) ∧
    permissionsRead ann2 = [JVal.str GROUP_CONSUMER] := by
  have hfst : ann2 = _add_default_permissions ann := save_ok_fst docIndex ann ann2 docIndex2 h2
  subst hfst
  have hset : _add_default_permissions ann =
      setKey ann "permissions" (JVal.obj [("read", JVal.arr [JVal.str GROUP_CONSUMER])]) := by
    simp [_add_default_permissions, h1]
  rw [hset]
  constructor
  · exact lookup_setKey_self ann "permissions" _
  · simp [permissionsRead, lookup_setKey_self, jobj, jarr, lookupList]

theorem claim_C3_witness :
    hasKey [] "permissions" = false ∧
    Annot.save [] [] =
      Except.ok ([("permissions", JVal.obj [("read", JVal.arr [JVal.str GROUP_CONSUMER])])], []) ∧
    (lookupList [("permissions", JVal.obj [("read", JVal.arr [JVal.str GROUP_CONSUMER])])] "permissions" =
       some (JVal.obj [("read", JVal.arr [JVal.str GROUP_CONSUMER])]) ∧
     permissionsRead [("permissions", JVal.obj [("read", JVal.arr [JVal.str GROUP_CONSUMER])])] =
       [JVal.str GROUP_CONSUMER]) :=
  ⟨rfl, rfl, claim_C3_default_read_permission [] [] _ [] rfl rfl⟩

theorem lookup_clampFrom_other (o : JDict) (k : String) (h : "from" ≠ k) :
    lookupList (clampFrom o) k = lookupList o k := by
  unfold clampFrom
  split
  · exact lookup_setKey_ne _ _ _ _ h
  · rfl

theorem lookup_clampSize_other (o : JDict) (k : String) (h : "size" ≠ k) :
    lookupList (clampSize o) k = lookupList o k := by
  unfold clampSize
  split
  · exact lookup_setKey_ne _ _ _ _ h
  · rfl

theorem clampFrom_found (o : JDict) (v : JVal) (hv : lookupList o "from" = some v) :
    lookupList (clampFrom o) "from" = some (JVal.num (max 0 (atoi v))) := by
  have hk : hasKey o "from" = true := by simp [hasKey, hv]
  simp only [clampFrom, hk, if_true, hv, Option.getD_some]
  exact lookup_setKey_self _ _ _

theorem clampSize_found (o : JDict) (v : JVal) (hv : lookupList o "size" = some v) :
    lookupList (clampSize o) "size" = some (JVal.num (min RESULTS_MAX_SIZE (max 0 (atoi v)))) := by
  have hk : hasKey o "size" = true := by simp [hasKey, hv]
  simp only [clampSize, hk, if_true, hv, Option.getD_some]
  exact lookup_setKey_self _ _ _

theorem clampO_from_eq (o : JDict) (v : JVal) (hv : lookupList o "from" = some v) :
    lookupList (clampO o) "from" = some (JVal.num (max 0 (atoi v))) := by
  unfold clampO
  rw [lookup_clampSize_other _ _ (by decide)]
  exact clampFrom_found o v hv

theorem clampO_size_eq (o : JDict) (v : JVal) (hv : lookupList o "size" = some v) :
    lookupList (clampO o) "size" = some (JVal.num (min RESULTS_MAX_SIZE (max 0 (atoi v)))) := by
  unfold clampO
  apply clampSize_found
  rw [lookup_clampFrom_other _ _ (by decide)]
  exact hv

/-- Claim C7: before a raw search executes, the paging controls of both the
query body and the extra params are clamped: a from value is floored to 0
and a size value is clamped into [0, RESULTS_MAX_SIZE] (values above the
maximum are capped to it). -/
theorem claim_C7_paging_clamped (query params q2 p2 : JDict)
    (h : build_query_raw_clamp query params = (q2, p2)) :
    (∀ v, lookupList query "from" = some v →
       lookupList q2 "from" = some (JVal.num (max 0 (atoi v))) ∧ 0 ≤ max 0 (atoi v)) ∧
    (∀ v, lookupList query "size" = some v →
       lookupList q2 "size" = some (JVal.num (min RESULTS_MAX_SIZE (max 0 (atoi v)))) ∧
       0 ≤ min RESULTS_MAX_SIZE (max 0 (atoi v)) ∧
       min RESULTS_MAX_SIZE (max 0 (atoi v)) ≤ RESULTS_MAX_SIZE) ∧
    (∀ v, lookupList params "from" = some v →
       lookupList p2 "from" = some (JVal.num (max 0 (atoi v))) ∧ 0 ≤ max 0 (atoi v)) ∧
    (∀ v, lookupList params "size" = some v →
       lookupList p2 "size" = some (JVal.num (min RESULTS_MAX_SIZE (max 0 (atoi v)))) ∧
       0 ≤ min RESULTS_MAX_SIZE (max 0 (atoi v)) ∧
       min RESULTS_MAX_SIZE (max 0 (atoi v)) ≤ RESULTS_MAX_SIZE) := by
  have hq : q2 = clampO query := by
    have := congrArg Prod.fst h
    exact this.symm
  have hp : p2 = clampO params := by
    have := congrArg Prod.snd h
    exact this.symm
  subst hq
  subst hp
  have hmin : ∀ x : Int, (0:Int) ≤ min RESULTS_MAX_SIZE (max 0 x) := by
    intro x
    apply le_min
    · decide
    · exact le_max_left 0 x
  refine ⟨?_, ?_, ?_, ?_⟩
  · intro v hv
    exact ⟨clampO_from_eq query v hv, le_max_left 0 (atoi v)⟩
  · intro v hv
    exact ⟨clampO_size_eq query v hv, hmin (atoi v), min_le_left _ _⟩
  · intro v hv
    exact ⟨clampO_from_eq params v hv, le_max_left 0 (atoi v)⟩
  · intro v hv
    exact ⟨clampO_size_eq params v hv, hmin (atoi v), min_le_left _ _⟩

theorem claim_C7_witness :
    build_query_raw_clamp [("from", JVal.num (-7)), ("size", JVal.num 1000)] [("size", JVal.num 999)] =
      ([("from", JVal.num 0), ("size", JVal.num 200)], [("size", JVal.num 200)]) ∧
    lookupList [("from", JVal.num 0), ("size", JVal.num 200)] "from" =
      some (JVal.num (max 0 (atoi (JVal.num (-7))))) ∧
    lookupList [("from", JVal.num 0), ("size", JVal.num 200)] "size" =
      some (JVal.num (min RESULTS_MAX_SIZE (max 0 (atoi (JVal.num 1000))))) ∧
    lookupList [("size", JVal.num 200)] "size" =
      some (JVal.num (min RESULTS_MAX_SIZE (max 0 (atoi (JVal.num 999))))) :=
  ⟨rfl,
   ((claim_C7_paging_clamped [("from", JVal.num (-7)), ("size", JVal.num 1000)] [("size", JVal.num 999)]
       [("from", JVal.num 0), ("size", JVal.num 200)] [("size", JVal.num 200)] (by rfl)).1
     (JVal.num (-7)) rfl).1,
   ((claim_C7_paging_clamped [("from", JVal.num (-7)), ("size", JVal.num 1000)] [("size", JVal.num 999)]
       [("from", JVal.num 0), ("size", JVal.num 200)] [("size", JVal.num 200)] (by rfl)).2.1
     (JVal.num 1000) rfl).1,
   ((claim_C7_paging_clamped [("from", JVal.num (-7)), ("size", JVal.num 1000)] [("size", JVal.num 999)]
       [("from", JVal.num 0), ("size", JVal.num 200)] [("size", JVal.num 200)] (by rfl)).2.2.2
     (JVal.num 999) rfl).1⟩

/-- Claim C10: a create request without an authenticated user is answered
with the 401 authorization-failure response and neither index changes; with
a user present, any successfully stored annotation carries consumer equal to
the authenticated consumer key, whatever the client payload said. -/
theorem claim_C10_create_auth_and_consumer (annIndex docIndex : List JDict)
    (payload : Option JDict) (u : User) :
    create_annot none annIndex docIndex payload =
      Except.ok (_failed_authz_response none "create annotation", annIndex, docIndex) ∧
    (_failed_authz_response none "create annotation").status = 401 ∧
    (∀ json r i1 i2, payload = some json →
       create_annot (some u) annIndex docIndex payload = Except.ok (r, i1, i2) →
       ∃ ann2, r = { body := JVal.obj ann2, status := 200 } ∧
         lookupList ann2 "consumer" = some (JVal.str u.consumer.key) ∧
         i1 = annIndex ++ [ann2]) := by
  refine ⟨by simp [create_annot], rfl, ?_⟩
  intro json r i1 i2 hp hc
  subst hp
  simp only [create_annot] at hc
  split at hc
  · simp at hc
  · rename_i ann2 docIndex2 heq
    simp only [Except.ok.injEq, Prod.mk.injEq] at hc
    obtain ⟨hr, hi1, hi2⟩ := hc
    refine ⟨ann2, hr.symm, ?_, hi1.symm⟩
    have h2 := save_ok_fst _ _ _ _ heq
    subst h2
    rw [lookup_addDefault_ne _ _ (by decide)]
    split
    · rw [lookup_setKey_ne _ _ _ _ (by decide)]
      exact lookup_setKey_self _ _ _
    · exact lookup_setKey_self _ _ _

theorem claim_C10_witness :
    (some [("text", JVal.str "hi"), ("consumer", JVal.str "evil")] : Option JDict) =
      some [("text", JVal.str "hi"), ("consumer", JVal.str "evil")] ∧
    create_annot (some { id := "alice", consumer := { key := "ckey" } }) [] []
        (some [("text", JVal.str "hi"), ("consumer", JVal.str "evil")]) =
      Except.ok
        ({ body := JVal.obj [("text", JVal.str "hi"), ("consumer", JVal.str "ckey"), ("user", JVal.str "alice"),
             ("permissions", JVal.obj [("read", JVal.arr [JVal.str GROUP_CONSUMER])])], status := 200 },
         [[("text", JVal.str "hi"), ("consumer", JVal.str "ckey"), ("user", JVal.str "alice"),
           ("permissions", JVal.obj [("read", JVal.arr [JVal.str GROUP_CONSUMER])])]], []) ∧
    (∃ ann2,
      ({ body := JVal.obj [("text", JVal.str "hi"), ("consumer", JVal.str "ckey"), ("user", JVal.str "alice"),
           ("permissions", JVal.obj [("read", JVal.arr [JVal.str GROUP_CONSUMER])])], status := 200 } : HttpResponse) =
        { body := JVal.obj ann2, status := 200 } ∧
      lookupList ann2 "consumer" = some (JVal.str "ckey") ∧
      [[("text", JVal.str "hi"), ("consumer", JVal.str "ckey"), ("user", JVal.str "alice"),
        ("permissions", JVal.obj [("read", JVal.arr [JVal.str GROUP_CONSUMER])])]] = [] ++ [ann2]) :=
  ⟨rfl, by rfl,
   (claim_C10_create_auth_and_consumer [] [] (some [("text", JVal.str "hi"), ("consumer", JVal.str "evil")])
       { id := "alice", consumer := { key := "ckey" } }).2.2
     [("text", JVal.str "hi"), ("consumer", JVal.str "evil")] _ _ [] rfl (by rfl)⟩

/-- Claim C8: a read, update or delete for an unknown id yields the 404
not-found outcome with no state change, and does so without consulting the
authorization collaborator at all (the result is the same for every
authorize function); when the id is known but the action is refused the
outcome is the distinct 401 authorization failure. -/
theorem claim_C8_unknown_id_not_found (authorize authorize2 : JDict → String → Option User → Bool)
    (user : Option User) (annIndex docIndex : List JDict) (id : String) (payload : Option JDict)
    (h : Annot.fetch annIndex id = none) :
    read_annot authorize user annIndex id = { body := JVal.str "Annotation not found!", status := 404 } ∧
    update_annot authorize user annIndex docIndex id payload =
      Except.ok ({ body := JVal.str "Annotation not found! No update performed.", status := 404 },
        annIndex, docIndex) ∧
    delete_annot authorize user annIndex id =
      ({ body := JVal.str "Annotation not found. No delete performed.", status := 404 }, annIndex) ∧
    read_annot authorize2 user annIndex id = read_annot authorize user annIndex id ∧
    update_annot authorize2 user annIndex docIndex id payload =
      update_annot authorize user annIndex docIndex id payload ∧
    delete_annot authorize2 user annIndex id = delete_annot authorize user annIndex id ∧
    (∀ annIndex2 ann2, Annot.fetch annIndex2 id = some ann2 →
       authorize ann2 "read" user = false →
       (read_annot authorize user annIndex2 id).status = 401 ∧ (404 : Nat) ≠ 401) := by
  refine ⟨by simp [read_annot, h], by simp [update_annot, h], by simp [delete_annot, h],
    by simp [read_annot, h], by simp [update_annot, h], by simp [delete_annot, h], ?_⟩
  intro annIndex2 ann2 h2 hb
  constructor
  · simp [read_annot, h2, _check_action, hb, _failed_authz_response]
  · decide

theorem claim_C8_witness :
    Annot.fetch ([] : List JDict) "x" = none ∧
    read_annot (fun _ _ _ => true) none [] "x" =
      { body := JVal.str "Annotation not found!", status := 404 } :=
  ⟨rfl,
   (claim_C8_unknown_id_not_found (fun _ _ _ => true) (fun _ _ _ => false) none [] [] "x" none rfl).1⟩

/-- Claim C9: under a granted update action, an update whose filtered
payload changes the stored permissions additionally needs the admin action
— when admin is refused the store answers the 401 permissions-update
failure and both indexes stay unchanged; an update whose payload omits the
permissions or leaves them equal depends only on the update action (any two
authorize functions agreeing on it give identical results, so admin is
never consulted). -/
theorem claim_C9_permission_change_needs_admin
    (authorize : JDict → String → Option User → Bool) (user : Option User)
    (annIndex docIndex : List JDict) (id : String) (json ann : JDict)
    (hfetch : Annot.fetch annIndex id = some ann)
    (hupd : authorize ann "update" user = true) :
    (changingPermissions (updatedPayload json id) ann = true →
       authorize ann "admin" user = false →
       update_annot authorize user annIndex docIndex id (some json) =
         Except.ok (_failed_authz_response user "permissions update", annIndex, docIndex) ∧
       (_failed_authz_response user "permissions update").status = 401) ∧
    (changingPermissions (updatedPayload json id) ann = false →
       ∀ authorize2 : JDict → String → Option User → Bool,
         authorize2 ann "update" user = authorize ann "update" user →
         update_annot authorize2 user annIndex docIndex id (some json) =
           update_annot authorize user annIndex docIndex id (some json)) := by
  constructor
  · intro hch hadm
    refine ⟨?_, rfl⟩
    simp [update_annot, hfetch, _check_action, hupd, hch, hadm]
  · intro hch authorize2 hag
    rw [hupd] at hag
    simp [update_annot, hfetch, _check_action, hupd, hag, hch]

theorem claim_C9_witness :
    Annot.fetch [[("id", JVal.str "a1"), ("permissions", JVal.obj [("read", JVal.arr [JVal.str "alice"])])]] "a1" =
      some [("id", JVal.str "a1"), ("permissions", JVal.obj [("read", JVal.arr [JVal.str "alice"])])] ∧
    ((changingPermissions
        (updatedPayload [("permissions", JVal.obj [("read", JVal.arr [JVal.str "bob"])])] "a1")
        [("id", JVal.str "a1"), ("permissions", JVal.obj [("read", JVal.arr [JVal.str "alice"])])] = true →
      (fun (_ : JDict) (act : String) (_ : Option User) => act == "update")
          [("id", JVal.str "a1"), ("permissions", JVal.obj [("read", JVal.arr [JVal.str "alice"])])] "admin" none = false →
      update_annot (fun _ act _ => act == "update") none
          [[("id", JVal.str "a1"), ("permissions", JVal.obj [("read", JVal.arr [JVal.str "alice"])])]] [] "a1"
          (some [("permissions", JVal.obj [("read", JVal.arr [JVal.str "bob"])])]) =
        Except.ok (_failed_authz_response none "permissions update",
          [[("id", JVal.str "a1"), ("permissions", JVal.obj [("read", JVal.arr [JVal.str "alice"])])]], []) ∧
      (_failed_authz_response none "permissions update").status = 401) ∧
     (changingPermissions
        (updatedPayload [("permissions", JVal.obj [("read", JVal.arr [JVal.str "bob"])])] "a1")
        [("id", JVal.str "a1"), ("permissions", JVal.obj [("read", JVal.arr [JVal.str "alice"])])] = false →
      ∀ authorize2 : JDict → String → Option User → Bool,
        authorize2 [("id", JVal.str "a1"), ("permissions", JVal.obj [("read", JVal.arr [JVal.str "alice"])])] "update" none =
          (fun (_ : JDict) (act : String) (_ : Option User) => act == "update")
            [("id", JVal.str "a1"), ("permissions", JVal.obj [("read", JVal.arr [JVal.str "alice"])])] "update" none →
        update_annot authorize2 none
            [[("id", JVal.str "a1"), ("permissions", JVal.obj [("read", JVal.arr [JVal.str "alice"])])]] [] "a1"
            (some [("permissions", JVal.obj [("read", JVal.arr [JVal.str "bob"])])]) =
          update_annot (fun _ act _ => act == "update") none
            [[("id", JVal.str "a1"), ("permissions", JVal.obj [("read", JVal.arr [JVal.str "alice"])])]] [] "a1"
            (some [("permissions", JVal.obj [("read", JVal.arr [JVal.str "bob"])])]))) :=
  ⟨by rfl,
   claim_C9_permission_change_needs_admin (fun _ act _ => act == "update") none
     [[("id", JVal.str "a1"), ("permissions", JVal.obj [("read", JVal.arr [JVal.str "alice"])])]] [] "a1"
     [("permissions", JVal.obj [("read", JVal.arr [JVal.str "bob"])])]
     [("id", JVal.str "a1"), ("permissions", JVal.obj [("read", JVal.arr [JVal.str "alice"])])]
     (by rfl) rfl⟩

theorem esSearchRaw_filtered_all {α : Type} (ev : JVal → α → Bool) (docs : List α)
    (q : JDict) (inner : JDict) (f : JVal)
    (hfil : lookupList inner "filter" = some f) :
    (esSearchRaw ev docs (setKey q "query" (JVal.obj [("filtered", JVal.obj inner)]))).all
      (fun a => ev f a) = true := by
  unfold esSearchRaw
  rw [lookup_setKey_self]
  rw [List.all_eq_true]
  intro a ha
  rw [List.mem_filter] at ha
  have hp := ha.2
  have hred : esQueryEval ev (JVal.obj [("filtered", JVal.obj inner)]) a =
      ((match lookupList inner "query" with
        | some qq => ev qq a
        | none => true) &&
       (match lookupList inner "filter" with
        | some ff => ev ff a
        | none => true)) := rfl
  rw [hred, hfil] at hp
  simp only [Bool.and_eq_true] at hp
  exact hp.2

/-- Claim C1: for every raw search body (GET or POST shape alike) executed
with authorization enabled and a usable permission filter, the query handed
to the index is the client query wrapped in a filtered query whose filter is
the permission filter (the client top-level query value, when present,
survives as the query part); consequently every hit the index returns for
it satisfies the permission filter, whatever filter shape the client body
carried. -/
theorem claim_C1_raw_search_wraps_filter {α : Type} (ev : JVal → α → Bool) (docs : List α)
    (pf : Option User → Option JVal) (user : Option User) (query : JDict) (f : JVal)
    (hf : pf user = some f) (ht : f.truthy = true) :
    ∃ inner : JDict,
      Annot.search_raw pf true (some query) user none =
        Except.ok (setKey query "query" (JVal.obj [("filtered", JVal.obj inner)])) ∧
      lookupList inner "filter" = some f ∧
      lookupList inner "query" = lookupList query "query" ∧
      (esSearchRaw ev docs (setKey query "query" (JVal.obj [("filtered", JVal.obj inner)]))).all
        (fun a => ev f a) = true := by
  cases hq : lookupList query "query" with
  | none =>
    refine ⟨[("filter", f)], ?_, rfl, rfl, ?_⟩
    · simp [Annot.search_raw, hf, ht, hq]
    · exact esSearchRaw_filtered_all ev docs query [("filter", f)] f rfl
  | some qv =>
    refine ⟨[("filter", f), ("query", qv)], ?_, rfl, rfl, ?_⟩
    · simp [Annot.search_raw, hf, ht, hq, setKey]
    · exact esSearchRaw_filtered_all ev docs query [("filter", f), ("query", qv)] f rfl

theorem claim_C1_witness :
    (fun (_ : Option User) => some (JVal.str "flt")) none = some (JVal.str "flt") ∧
    (JVal.str "flt").truthy = true ∧
    (∃ inner : JDict,
      Annot.search_raw (fun _ => some (JVal.str "flt")) true
          (some [("query", JVal.str "orig"), ("filter", JVal.str "evil")]) none none =
        Except.ok (setKey [("query", JVal.str "orig"), ("filter", JVal.str "evil")] "query"
          (JVal.obj [("filtered", JVal.obj inner)])) ∧
      lookupList inner "filter" = some (JVal.str "flt") ∧
      lookupList inner "query" =
        lookupList [("query", JVal.str "orig"), ("filter", JVal.str "evil")] "query" ∧
      (esSearchRaw (fun v (_ : Nat) => v.truthy) [1]
          (setKey [("query", JVal.str "orig"), ("filter", JVal.str "evil")] "query"
            (JVal.obj [("filtered", JVal.obj inner)]))).all
        (fun a => (fun v (_ : Nat) => v.truthy) (JVal.str "flt") a) = true) :=
  ⟨rfl, rfl,
   claim_C1_raw_search_wraps_filter (fun v (_ : Nat) => v.truthy) [1]
     (fun _ => some (JVal.str "flt")) none
     [("query", JVal.str "orig"), ("filter", JVal.str "evil")] (JVal.str "flt") rfl rfl⟩

theorem andListOf_setAndList (q : JDict) (ts : List JVal) :
    andListOf (setAndList q ts) = ts := by
  simp only [andListOf, setAndList]
  rw [lookup_setKey_self]
  simp only [jobj]
  rw [lookup_setKey_self]
  simp only [jobj]
  rw [lookup_setKey_self]
  simp only [jobj]
  rw [lookup_setKey_self]
  simp only [jarr]

theorem andListOf_esModel (query : JDict) (offset limit : Option Int) :
    andListOf (esModel_build_query query offset limit) = query.map termClause := rfl

theorem hasKey_term_uri (kv : String × JVal) :
    hasKey (jobj (lookupList (jobjV (termClause kv)) "term")) "uri" = (kv.1 == "uri") := by
  by_cases hk : kv.1 == "uri"
  · simp [termClause, jobjV, jobj, lookupList, hasKey, hk]
  · simp [termClause, jobjV, jobj, lookupList, hasKey, hk]

/-- Claim C4: when the query parameters contain a uri key, the built
structured query keeps one clause per parameter, in order: if the registry
knows a Document for that uri the single-URI term clause is replaced by an
or of one term clause per href of that Document, all other field clauses
staying in place; if no Document is known every clause — including the
original single-URI term clause — is left unchanged. -/
theorem claim_C4_uri_expansion (pf : Option User → Option JVal) (docIndex : List JDict)
    (query : JDict) (offset limit : Option Int) (user : Option User)
    (h : hasKey query "uri" = true) :
    ∃ q, Annot._build_query pf false docIndex (some query) offset limit user = some q ∧
      andListOf q =
        query.map (fun kv =>
          match Document.get_by_uri docIndex ((lookupList query "uri").getD JVal.null) with
          | some doc => if kv.1 == "uri" then orOfUris doc else termClause kv
          | none => termClause kv) := by
  cases hdoc : Document.get_by_uri docIndex ((lookupList query "uri").getD JVal.null) with
  | none =>
    refine ⟨esModel_build_query query offset limit, ?_, ?_⟩
    · simp [Annot._build_query, h, hdoc]
    · rw [andListOf_esModel]
  | some doc =>
    refine ⟨setAndList (esModel_build_query query offset limit)
        ((andListOf (esModel_build_query query offset limit)).map (fun term =>
          if hasKey (jobj (lookupList (jobjV term) "term")) "uri" then orOfUris doc else term)),
      ?_, ?_⟩
    · simp [Annot._build_query, h, hdoc]
    · rw [andListOf_setAndList, andListOf_esModel, List.map_map]
      have hfun : ((fun term =>
            if hasKey (jobj (lookupList (jobjV term) "term")) "uri" then orOfUris doc else term) ∘ termClause) =
          (fun kv : String × JVal => if kv.1 == "uri" then orOfUris doc else termClause kv) := by
        funext kv
        simp only [Function.comp_apply, hasKey_term_uri]
      rw [hfun]

theorem claim_C4_witness :
    hasKey [("uri", JVal.str "http://a/x"), ("user", JVal.str "bob")] "uri" = true ∧
    (∃ q, Annot._build_query (fun _ => none) false
        [[("link", JVal.arr [JVal.obj [("href", JVal.str "http://a/x"), ("type", JVal.str "text/html")],
                             JVal.obj [("href", JVal.str "http://a/y"), ("type", JVal.str "text/html")]])]]
        (some [("uri", JVal.str "http://a/x"), ("user", JVal.str "bob")]) none none none = some q ∧
      andListOf q =
        [("uri", JVal.str "http://a/x"), ("user", JVal.str "bob")].map (fun kv =>
          match Document.get_by_uri
              [[("link", JVal.arr [JVal.obj [("href", JVal.str "http://a/x"), ("type", JVal.str "text/html")],
                                   JVal.obj [("href", JVal.str "http://a/y"), ("type", JVal.str "text/html")]])]]
              ((lookupList [("uri", JVal.str "http://a/x"), ("user", JVal.str "bob")] "uri").getD JVal.null) with
          | some doc => if kv.1 == "uri" then orOfUris doc else termClause kv
          | none => termClause kv)) :=
  ⟨rfl,
   claim_C4_uri_expansion (fun _ => none)
     [[("link", JVal.arr [JVal.obj [("href", JVal.str "http://a/x"), ("type", JVal.str "text/html")],
                          JVal.obj [("href", JVal.str "http://a/y"), ("type", JVal.str "text/html")]])]]
     [("uri", JVal.str "http://a/x"), ("user", JVal.str "bob")] none none none rfl⟩

theorem linkList_set (d : JDict) (xs : List JVal) :
    linkList (setKey d "link" (JVal.arr xs)) = xs := by
  simp [linkList, lookup_setKey_self]

theorem uris_mergeStep (cur : List JVal) (d : JDict) (l : JVal) :
    Document.uris (mergeStep cur d l) = Document.uris d ∨
    Document.uris (mergeStep cur d l) = Document.uris d ++ [hrefOf l] := by
  unfold mergeStep
  split
  · right
    simp [Document.uris, linkList_set]
  · left
    rfl

theorem containsPy_append_left (xs ys : List JVal) (v : JVal)
    (h : containsPy xs v = true) : containsPy (xs ++ ys) v = true := by
  simp only [containsPy, List.any_append, Bool.or_eq_true]
  left
  exact h

theorem containsPy_append_last (xs : List JVal) (s : String) :
    containsPy (xs ++ [JVal.str s]) (JVal.str s) = true := by
  simp [containsPy, pyEq]

theorem containsPy_fold_mono (cur ls : List JVal) (d : JDict) (v : JVal)
    (h : containsPy (Document.uris d) v = true) :
    containsPy (Document.uris (List.foldl (mergeStep cur) d ls)) v = true := by
  induction ls generalizing d with
  | nil => simpa using h
  | cons a as ih =>
    rw [List.foldl_cons]
    apply ih
    rcases uris_mergeStep cur d a with h2 | h2
    · rw [h2]; exact h
    · rw [h2]; exact containsPy_append_left _ _ _ h

theorem fold_covers (cur : List JVal) :
    ∀ (ls : List JVal) (d : JDict) (l : JVal), l ∈ ls →
      l.hasKeyV "href" = true → l.hasKeyV "type" = true →
      (∃ s, hrefOf l = JVal.str s) →
      containsPy (Document.uris (List.foldl (mergeStep cur) d ls)) (hrefOf l) = true ∨
      containsPy cur (hrefOf l) = true := by
  intro ls
  induction ls with
  | nil =>
    intro d l h
    simp at h
  | cons a as ih =>
    intro d l hmem hh ht2 hs
    rw [List.foldl_cons]
    rcases List.mem_cons.mp hmem with heq | hmem2
    · subst heq
      cases hcon : containsPy cur (hrefOf l) with
      | true => right; rfl
      | false =>
        left
        have hstep : mergeStep cur d l = setKey d "link" (JVal.arr (linkList d ++ [l])) := by
          simp [mergeStep, hh, ht2, hcon]
        rw [hstep]
        apply containsPy_fold_mono
        obtain ⟨s, hs2⟩ := hs
        simp only [Document.uris, linkList_set, List.map_append, List.map_cons, List.map_nil, hs2]
        exact containsPy_append_last _ s
    · exact ih (mergeStep cur d a) l hmem2 hh ht2 hs

theorem mergeStep_id_of (cur : List JVal) (l : JVal)
    (h : l.hasKeyV "href" = false ∨ l.hasKeyV "type" = false ∨ containsPy cur (hrefOf l) = true) :
    ∀ d, mergeStep cur d l = d := by
  intro d
  unfold mergeStep
  rcases h with h | h | h <;> simp [h]

theorem foldl_mergeStep_id (cur : List JVal) (ls : List JVal) (d : JDict)
    (h : ∀ l ∈ ls, ∀ d2, mergeStep cur d2 l = d2) :
    List.foldl (mergeStep cur) d ls = d := by
  induction ls generalizing d with
  | nil => rfl
  | cons a as ih =>
    rw [List.foldl_cons, h a (List.mem_cons_self a as)]
    exact ih d (fun l hl => h l (List.mem_cons_of_mem a hl))

/-- Claim C6: merging the same list of links twice leaves the Document
exactly as after the first merge — in particular the href set is unchanged
— and a single link whose href is already among the Document's uris is
never appended (the merge is a no-op).  Links are assumed to carry string
hrefs, as the data model prescribes for link entries. -/
theorem claim_C6_merge_links_idem (doc : JDict) (links : List JVal) (xs : List JVal)
    (_hlink : lookupList doc "link" = some (JVal.arr xs))
    (hstr : ∀ l ∈ links, l.hasKeyV "href" = true → ∃ s, hrefOf l = JVal.str s) :
    Document.merge_links (Document.merge_links doc links) links = Document.merge_links doc links ∧
    Document.uris (Document.merge_links (Document.merge_links doc links) links) =
      Document.uris (Document.merge_links doc links) ∧
    (∀ l, l.hasKeyV "href" = true → l.hasKeyV "type" = true →
       containsPy (Document.uris doc) (hrefOf l) = true →
       Document.merge_links doc [l] = doc) := by
  have hmain : Document.merge_links (Document.merge_links doc links) links =
      Document.merge_links doc links := by
    unfold Document.merge_links
    apply foldl_mergeStep_id
    intro l hl
    apply mergeStep_id_of
    by_cases hh : l.hasKeyV "href" = true
    · by_cases ht2 : l.hasKeyV "type" = true
      · right; right
        rcases fold_covers (Document.uris doc) links doc l hl hh ht2 (hstr l hl hh) with hc | hc
        · exact hc
        · exact containsPy_fold_mono _ _ _ _ hc
      · right; left
        rw [← Bool.not_eq_true]
        exact ht2
    · left
      rw [← Bool.not_eq_true]
      exact hh
  refine ⟨hmain, by rw [hmain], ?_⟩
  intro l hh ht2 hc
  show List.foldl (mergeStep (Document.uris doc)) doc [l] = doc
  rw [List.foldl_cons, mergeStep_id_of _ _ (Or.inr (Or.inr hc)) doc, List.foldl_nil]

theorem claim_C6_witness :
    lookupList [("link", JVal.arr [])] "link" = some (JVal.arr []) ∧
    (Document.merge_links
        (Document.merge_links [("link", JVal.arr [])]
          [JVal.obj [("href", JVal.str "u"), ("type", JVal.str "t")]])
        [JVal.obj [("href", JVal.str "u"), ("type", JVal.str "t")]] =
      Document.merge_links [("link", JVal.arr [])]
        [JVal.obj [("href", JVal.str "u"), ("type", JVal.str "t")]] ∧
     Document.uris (Document.merge_links
        (Document.merge_links [("link", JVal.arr [])]
          [JVal.obj [("href", JVal.str "u"), ("type", JVal.str "t")]])
        [JVal.obj [("href", JVal.str "u"), ("type", JVal.str "t")]]) =
      Document.uris (Document.merge_links [("link", JVal.arr [])]
        [JVal.obj [("href", JVal.str "u"), ("type", JVal.str "t")]]) ∧
     (∀ l, l.hasKeyV "href" = true → l.hasKeyV "type" = true →
        containsPy (Document.uris [("link", JVal.arr [])]) (hrefOf l) = true →
        Document.merge_links [("link", JVal.arr [])] [l] = [("link", JVal.arr [])])) :=
  ⟨rfl,
   claim_C6_merge_links_idem [("link", JVal.arr [])]
     [JVal.obj [("href", JVal.str "u"), ("type", JVal.str "t")]] [] rfl
     (by
       intro l hl _hh
       simp only [List.mem_singleton] at hl
       subst hl
       exact ⟨"u", rfl⟩)⟩

theorem replaceFirst_spec (xs : List JDict) (p : JDict → Bool) (nd d0 : JDict) (rest : List JDict)
    (h : xs.filter p = d0 :: rest) :
    ∃ k, xs[k]? = some d0 ∧ replaceFirst xs p nd = xs.set k nd := by
  induction xs generalizing rest with
  | nil => simp at h
  | cons x xs ih =>
    by_cases hp : p x
    · rw [List.filter_cons_of_pos hp] at h
      have hx : x = d0 := (List.cons.injEq _ _ _ _ ▸ h).1
      refine ⟨0, ?_, ?_⟩
      · simp [hx]
      · simp [replaceFirst, hp]
    · rw [List.filter_cons_of_neg hp] at h
      obtain ⟨k, hk1, hk2⟩ := ih rest h
      refine ⟨k + 1, ?_, ?_⟩
      · simpa using hk1
      · simp [replaceFirst, hp, hk2]

/-- Claim C5: saving an annotation with an embedded document extracts the
hrefs of its links and looks existing Documents up by them; when none is
found a new Document record with the embedded metadata is appended, and
when one or more are found the incoming links are merged into the first
match, which is persisted in place — the index keeps its length (no
duplicate created) and every other position, including the other matches,
is untouched. -/
theorem claim_C5_save_document_resolution (docIndex : List JDict) (ann : JDict) (d : JVal)
    (ls us : List JVal)
    (hd : lookupList ann "document" = some d)
    (hls : dLinkList d = Except.ok ls)
    (hus : hrefsOfLinks ls = Except.ok us) :
    (Document.get_all_by_uris docIndex us = [] →
       Annot.save docIndex ann = Except.ok (_add_default_permissions ann, docIndex ++ [jobjV d])) ∧
    (∀ d0 rest, Document.get_all_by_uris docIndex us = d0 :: rest →
       Annot.save docIndex ann =
         Except.ok (_add_default_permissions ann,
           replaceFirst docIndex (docOwnsAny us) (Document.merge_links d0 ls)) ∧
       ∃ k, docIndex[k]? = some d0 ∧
         replaceFirst docIndex (docOwnsAny us) (Document.merge_links d0 ls) =
           docIndex.set k (Document.merge_links d0 ls) ∧
         (docIndex.set k (Document.merge_links d0 ls)).length = docIndex.length ∧
         (∀ j, j ≠ k → (docIndex.set k (Document.merge_links d0 ls))[j]? = docIndex[j]?)) := by
  have hd2 : lookupList (_add_default_permissions ann) "document" = some d := by
    rw [lookup_addDefault_ne _ _ (by decide)]
    exact hd
  constructor
  · intro hnone
    simp only [Annot.save, hd2, hls, hus, hnone]
  · intro d0 rest hcons
    constructor
    · simp only [Annot.save, hd2, hls, hus, hcons]
    · obtain ⟨k, hk1, hk2⟩ :=
        replaceFirst_spec docIndex (docOwnsAny us) (Document.merge_links d0 ls) d0 rest hcons
      refine ⟨k, hk1, hk2, by simp, ?_⟩
      intro j hj
      exact List.getElem?_set_ne (Ne.symm hj)

theorem claim_C5_witness :
    lookupList [("document", JVal.obj [("link", JVal.arr [JVal.obj [("href", JVal.str "u"), ("type", JVal.str "t")]])])]
        "document" =
      some (JVal.obj [("link", JVal.arr [JVal.obj [("href", JVal.str "u"), ("type", JVal.str "t")]])]) ∧
    dLinkList (JVal.obj [("link", JVal.arr [JVal.obj [("href", JVal.str "u"), ("type", JVal.str "t")]])]) =
      Except.ok [JVal.obj [("href", JVal.str "u"), ("type", JVal.str "t")]] ∧
    hrefsOfLinks [JVal.obj [("href", JVal.str "u"), ("type", JVal.str "t")]] = Except.ok [JVal.str "u"] ∧
    ((Document.get_all_by_uris [] [JVal.str "u"] = [] →
       Annot.save []
           [("document", JVal.obj [("link", JVal.arr [JVal.obj [("href", JVal.str "u"), ("type", JVal.str "t")]])])] =
         Except.ok
           (_add_default_permissions
             [("document", JVal.obj [("link", JVal.arr [JVal.obj [("href", JVal.str "u"), ("type", JVal.str "t")]])])],
            [] ++ [jobjV (JVal.obj [("link", JVal.arr [JVal.obj [("href", JVal.str "u"), ("type", JVal.str "t")]])])])) ∧
     (∀ d0 rest, Document.get_all_by_uris [] [JVal.str "u"] = d0 :: rest →
       Annot.save []
           [("document", JVal.obj [("link", JVal.arr [JVal.obj [("href", JVal.str "u"), ("type", JVal.str "t")]])])] =
         Except.ok
           (_add_default_permissions
             [("document", JVal.obj [("link", JVal.arr [JVal.obj [("href", JVal.str "u"), ("type", JVal.str "t")]])])],
            replaceFirst [] (docOwnsAny [JVal.str "u"])
              (Document.merge_links d0 [JVal.obj [("href", JVal.str "u"), ("type", JVal.str "t")]])) ∧
       ∃ k, ([] : List JDict)[k]? = some d0 ∧
         replaceFirst [] (docOwnsAny [JVal.str "u"])
             (Document.merge_links d0 [JVal.obj [("href", JVal.str "u"), ("type", JVal.str "t")]]) =
           ([] : List JDict).set k (Document.merge_links d0 [JVal.obj [("href", JVal.str "u"), ("type", JVal.str "t")]]) ∧
         (([] : List JDict).set k (Document.merge_links d0 [JVal.obj [("href", JVal.str "u"), ("type", JVal.str "t")]])).length =
           ([] : List JDict).length ∧
         (∀ j, j ≠ k →
           (([] : List JDict).set k (Document.merge_links d0 [JVal.obj [("href", JVal.str "u"), ("type", JVal.str "t")]]))[j]? =
             ([] : List JDict)[j]?))) :=
  ⟨rfl, rfl, rfl,
   claim_C5_save_document_resolution []
     [("document", JVal.obj [("link", JVal.arr [JVal.obj [("href", JVal.str "u"), ("type", JVal.str "t")]])])]
     (JVal.obj [("link", JVal.arr [JVal.obj [("href", JVal.str "u"), ("type", JVal.str "t")]])])
     [JVal.obj [("href", JVal.str "u"), ("type", JVal.str "t")]] [JVal.str "u"] rfl rfl rfl⟩
